import Mathlib

/-!
# Verification development for `web/main.js`

Shallow embedding of the two parts of `main.js` the specification talks about:

* `getPulseToneTransform` (lines 49-96): the per-chunk audio transform.  JavaScript numbers
  are modelled as elements of a linearly ordered field `α` (exact arithmetic: the rounding of
  binary64 and of the `Float32Array` is not represented, so only statements that do not
  depend on rounding are made about the code); `Math.sin` and `Math.PI` are parameters `sin`
  and `PI`, instantiated with `Real.sin` and `Real.pi` where a statement depends on their
  values.
* the signaling handlers (lines 99-267): the module-level variables form a `Page` record and
  every call made on a browser collaborator is appended to a log.
-/

namespace MainJs

/-- The JavaScript exceptions that occur in the modelled code. -/
inductive JsError where
  | RangeError
  | TypeError
  | ReferenceError
  deriving DecidableEq, Repr

/-- An `AudioData` frame seen through `copyTo(.., {planeIndex: c, format: 'f32-planar'})`:
`plane c i` is sample `i` of channel `c`. -/
structure AudioData (α : Type) where
  sampleRate : α
  numberOfFrames : Nat
  numberOfChannels : Nat
  timestamp : Int
  plane : Nat → Nat → α

/-- Line 59: `let buffer_size = 2 * 2048`. -/
def buffer_size : Nat := 2 * 2048

/-- A `Float32Array` view into the scratch buffer: first index and length. -/
structure View where
  start : Nat
  length : Nat
  deriving DecidableEq, Repr

/-- The call `buffer.subarray(begin, end)` on a typed array of `len` elements: both bounds are
clamped to the array, the view is empty when the clamped end is not after the clamped begin. -/
def subarray (len begin_ end_ : Nat) : View :=
  ⟨min begin_ len, min end_ len - min begin_ len⟩

section Transform

variable {α : Type} [LinearOrderedField α]

/-- The call `data.copyTo(samples, {planeIndex, format: 'f32-planar'})`: throws a `RangeError`
when the plane does not exist or when the destination view holds fewer than `numberOfFrames`
elements; otherwise writes the plane through the view into the underlying buffer. -/
def AudioData.copyTo (data : AudioData α) (buffer : Nat → α) (samples : View)
    (planeIndex : Nat) : Except JsError (Nat → α) :=
  if data.numberOfChannels ≤ planeIndex then .error .RangeError
  else if samples.length < data.numberOfFrames then .error .RangeError
  else .ok (fun j =>
    if samples.start ≤ j ∧ j < samples.start + data.numberOfFrames
    then data.plane planeIndex (j - samples.start) else buffer j)

/-- The constructor `new AudioData({format: 'f32-planar', sampleRate, numberOfFrames,
numberOfChannels, timestamp, data})`: throws a `TypeError` when the init dictionary is not
valid (non-positive sample rate, zero frames or channels, or `data` shorter than frames times
channels); otherwise the frame holds a copy of `data`, plane `c` starting at element
`numberOfFrames * c`. -/
def AudioData.new (sampleRate : α) (numberOfFrames numberOfChannels : Nat) (timestamp : Int)
    (data : Nat → α) (dataLength : Nat) : Except JsError (AudioData α) :=
  if sampleRate ≤ 0 ∨ numberOfFrames = 0 ∨ numberOfChannels = 0
      ∨ dataLength < numberOfFrames * numberOfChannels then .error .TypeError
  else .ok ⟨sampleRate, numberOfFrames, numberOfChannels, timestamp,
    fun c i => data (numberOfFrames * c + i)⟩

/-- Lines 52 and 54: the angular rate of the 120 Hz tone. -/
def omegaA (PI : α) : α := 2.0 * PI * 120.0

/-- Lines 53 and 55: the angular rate of the 0.75 Hz pulse. -/
def omegaB (PI : α) : α := 2.0 * PI * 0.75

/-- Line 58: `let two_pi = 2.0 * Math.PI`. -/
def two_pi (PI : α) : α := 2.0 * PI

/-- The state captured by the closure that `getPulseToneTransform` returns. -/
structure ToneState (α : Type) where
  phaseA : α
  phaseB : α
  buffer : Nat → α

/-- Lines 56-60: the state of a fresh instance. -/
def getPulseToneTransform : ToneState α := ⟨0.0, 0.0, fun _ => 0⟩

/-- Lines 74-76: the new value of `samples[i]`, given its old value `sample`. -/
def warbledSample (sin : α → α) (PI phaseA phaseB dt sample : α) (i : Nat) : α :=
  let t := (i : α) * dt
  let b := sin (phaseB + omegaB PI * t)
  min (max (-1.0) (sample + 0.5 * sin (phaseA + omegaA PI * t) * b * b)) 1.0

/-- Lines 73-77: the loop over `i < samples.length` that adds the tone to the samples of one
view; `samples[i]` is element `samples.start + i` of the underlying buffer. -/
def addWarbledTone (sin : α → α) (PI phaseA phaseB dt : α) (samples : View)
    (buffer : Nat → α) : Nat → α :=
  (List.range samples.length).foldl (fun (buf : Nat → α) (i : Nat) =>
    Function.update buf (samples.start + i)
      (warbledSample sin PI phaseA phaseB dt (buf (samples.start + i)) i)) buffer

/-- Lines 66-78: the body of the loop over the channels, for channel `c`. -/
def channelStep (sin : α → α) (PI phaseA phaseB dt : α) (data : AudioData α)
    (buffer : Nat → α) (c : Nat) : Except JsError (Nat → α) :=
  let offset := data.numberOfFrames * c
  let samples := subarray buffer_size offset (offset + data.numberOfFrames)
  match data.copyTo buffer samples c with
  | .error e => .error e
  | .ok copied => .ok (addWarbledTone sin PI phaseA phaseB dt samples copied)

/-- Lines 66-78: `for (let c = 0; c < nChannels; c++)`. -/
def channelLoop (sin : α → α) (PI phaseA phaseB dt : α) (data : AudioData α)
    (nChannels : Nat) (buffer : Nat → α) : Except JsError (Nat → α) :=
  (List.range nChannels).foldlM (channelStep sin PI phaseA phaseB dt data) buffer

/-- Lines 79-86: advance one phase accumulator and wrap it once. -/
def advancePhase (PI phase omega : α) (numberOfFrames : Nat) (dt : α) : α :=
  let phase := phase + omega * (numberOfFrames : α) * dt
  if phase > two_pi PI then phase - two_pi PI else phase

/-- Lines 62-95: one invocation of the transform on `data`; `controller` is the list of frames
enqueued so far.  An exception leaves no result: the stream is errored and the instance is not
invoked again. -/
def pulseToneTransform (sin : α → α) (PI : α) (st : ToneState α) (data : AudioData α)
    (controller : List (AudioData α)) :
    Except JsError (ToneState α × List (AudioData α)) :=
  let dt := 1.0 / data.sampleRate
  let nChannels := data.numberOfChannels
  match channelLoop sin PI st.phaseA st.phaseB dt data nChannels st.buffer with
  | .error e => .error e
  | .ok buffer =>
    let phaseA := advancePhase PI st.phaseA (omegaA PI) data.numberOfFrames dt
    let phaseB := advancePhase PI st.phaseB (omegaB PI) data.numberOfFrames dt
    match AudioData.new data.sampleRate data.numberOfFrames nChannels data.timestamp
        buffer buffer_size with
    | .error e => .error e
    | .ok frame => .ok (⟨phaseA, phaseB, buffer⟩, controller ++ [frame])

/-- A `TransformStream` over one instance: the transform is invoked once per chunk, in order.
The result is the list of frames enqueued downstream and either the final state of the instance
or the exception that errored the stream (after which the transform is not invoked again). -/
def transformStream (sin : α → α) (PI : α) :
    ToneState α → List (AudioData α) → List (AudioData α) →
      List (AudioData α) × Except JsError (ToneState α)
  | st, [], controller => (controller, .ok st)
  | st, data :: rest, controller =>
    match pulseToneTransform sin PI st data controller with
    | .error e => (controller, .error e)
    | .ok (st', controller') => transformStream sin PI st' rest controller'

/-- The spec's `clamp(x, lo, hi)`. -/
def clamp (x lo hi : α) : α := max lo (min x hi)

/-- Stream time before a chunk: the sum of `numberOfFrames / sampleRate` over the earlier
chunks. -/
def elapsed (earlier : List (AudioData α)) : α :=
  (earlier.map (fun f => (f.numberOfFrames : α) / f.sampleRate)).sum

/-- Reference definition of an output sample, following the specification's words:
`clamp(in + 0.5 * sin(wA * time) * sin(wB * time)^2, -1, 1)` with `wA = 2*pi*120`,
`wB = 2*pi*0.75` and `time = T + i / sampleRate`, `T` the stream time before the chunk. -/
def referenceSample (sin : α → α) (PI T : α) (data : AudioData α) (c i : Nat) : α :=
  let time := T + (i : α) / data.sampleRate
  clamp (data.plane c i
    + 0.5 * sin (2 * PI * 120 * time) * sin (2 * PI * 0.75 * time) ^ 2) (-1) 1

/-- A mono chunk of 10 ms of silence at 48 kHz: 480 frames. -/
def chunk480 : AudioData α := ⟨48000, 480, 1, 0, fun _ _ => 0⟩

/-- A mono chunk of 100 ms of silence at 48 kHz: 4800 frames. -/
def chunk4800 : AudioData α := ⟨48000, 4800, 1, 0, fun _ _ => 0⟩

end Transform

section Signaling

/-- A `MediaStreamTrack`: a raw track (captured from the microphone or received from the peer)
or the track of a `MediaStreamTrackGenerator`. -/
inductive Track where
  | raw (id : Nat)
  | generator (id : Nat)
  deriving DecidableEq, Repr

/-- A `MediaStream`, as the list of its tracks. -/
abbrev MediaStream := List Track

/-- The `candidate` member of a signaling message as it arrives: absent, a bare string, or a
dictionary with the members of `RTCIceCandidateInit` that matter here. -/
inductive CandidateValue where
  | undefined
  | string (value : String)
  | dictionary (candidate : String) (sdpMid : Option String) (sdpMLineIndex : Option Nat)
  deriving DecidableEq, Repr

/-- An `RTCIceCandidate` object. -/
structure IceCandidate where
  candidate : String
  sdpMid : Option String
  sdpMLineIndex : Option Nat
  deriving DecidableEq, Repr

/-- The constructor `new RTCIceCandidate(value)` of line 264: throws a `TypeError` for a value
that is not a dictionary (a bare string such as `"c1"`) and for a dictionary whose `sdpMid` and
`sdpMLineIndex` are both null (so also for an absent value, read as the empty dictionary). -/
def RTCIceCandidate : CandidateValue → Except JsError IceCandidate
  | .undefined => .error .TypeError
  | .string _ => .error .TypeError
  | .dictionary _ none none => .error .TypeError
  | .dictionary candidate sdpMid sdpMLineIndex => .ok ⟨candidate, sdpMid, sdpMLineIndex⟩

/-- A signaling message as it travels over the socket: `type` selects the case of the switch in
`handleSignalingData`, `sdp` is the description of an offer or answer, `candidate` the ICE
candidate of a candidate message. -/
structure SignalingData where
  type : String
  sdp : String
  candidate : CandidateValue
  deriving DecidableEq, Repr

/-- The calls the page makes on its collaborators (connection, streams, socket, console), in the
order they are made.  `pipe source transformer generator` stands for
`processor.readable.pipeThrough(transformer, ..).pipeTo(generator.writable)` with `processor`
a new `MediaStreamTrackProcessor` over `source`, `transformer` a new `TransformStream` over a
new `getPulseToneTransform()` instance and `generator` a new `MediaStreamTrackGenerator`.
The progress messages written with `console.log` (lines 103, 108, 126, 175, 182, 190, 199,
205, 214) are left out. -/
inductive Call where
  | newRTCPeerConnection (pc : Nat)
  | pipe (source : Track) (transformer generator : Nat)
  | addStream (pc : Nat) (stream : MediaStream)
  | createOffer (pc : Nat)
  | createAnswer (pc : Nat)
  | setLocalDescription (pc : Nat) (description : SignalingData)
  | setRemoteDescription (pc : Nat) (description : SignalingData)
  | addIceCandidate (pc : Nat) (candidate : IceCandidate)
  | socketEmit (data : SignalingData)
  | consoleLog (message : String)
  | consoleError (message : String)
  | cancel (source : Track)
  | abort (generator : Nat)
  deriving DecidableEq, Repr

/-- The module-level state of `main.js`.  `insertableStreams` says whether the browser defines
`MediaStreamTrackProcessor` and `MediaStreamTrackGenerator` (lines 1-12 only alert when it does
not); `localStream` holds the audio tracks of the captured stream; `connections`, `transforms`
and `generators` count the objects of each kind created so far and number the next one. -/
structure Page where
  insertOutboundTonePulse : Bool
  insertInboundTonePulse : Bool
  insertableStreams : Bool
  localStream : MediaStream
  pc : Option Nat
  processor : Option Track
  transformer : Option Nat
  generator : Option Nat
  srcObject : Option MediaStream
  connections : Nat
  transforms : Nat
  generators : Nat
  calls : List Call
  deriving DecidableEq, Repr

/-- The page once the script has been loaded and the local stream acquired, before any event
of the signaling socket. -/
def loaded (insertOutboundTonePulse insertInboundTonePulse insertableStreams : Bool)
    (localStream : MediaStream) : Page :=
  ⟨insertOutboundTonePulse, insertInboundTonePulse, insertableStreams, localStream,
    none, none, none, none, none, 0, 0, 0, []⟩

/-- Lines 114-116: `sendData`. -/
def sendData (s : Page) (data : SignalingData) : Page :=
  { s with calls := s.calls ++ [Call.socketEmit data] }

/-- Lines 136-179: `createPeerConnection`.  The constructor of line 138 is taken to succeed.
Building the pipeline throws when the insertable-streams classes are missing (line 146, a
`ReferenceError`) or when the local stream has no audio track (line 146, a `TypeError`); the
catch of line 176 logs the exception and returns. -/
def createPeerConnection (s : Page) : Page :=
  let p := s.connections
  let s := { s with pc := some p, connections := p + 1,
                    calls := s.calls ++ [Call.newRTCPeerConnection p] }
  if s.insertOutboundTonePulse then
    if s.insertableStreams then
      match s.localStream with
      | [] => { s with calls := s.calls ++ [Call.consoleError "PeerConnection failed: "] }
      | track :: _ =>
        let t := s.transforms
        let g := s.generators
        { s with processor := some track, transformer := some t, generator := some g,
                 transforms := t + 1, generators := g + 1,
                 calls := s.calls ++ [Call.pipe track t g, Call.addStream p [Track.generator g]] }
    else { s with calls := s.calls ++ [Call.consoleError "PeerConnection failed: "] }
  else { s with calls := s.calls ++ [Call.addStream p s.localStream] }

/-- Lines 158-166: the handler `createPeerConnection` attaches with `promise.catch` to the pipe
from `source` into the generator `sink`; `aborted` is `signal.aborted`. -/
def createPeerConnection_catch (s : Page) (source : Track) (sink : Nat) (aborted : Bool) :
    Page :=
  let s :=
    if aborted then
      { s with calls := s.calls ++ [Call.consoleLog "Shutting down streams after abort."] }
    else { s with calls := s.calls ++ [Call.consoleError "Error from stream transform:"] }
  { s with calls := s.calls ++ [Call.cancel source, Call.abort sink] }

/-- Lines 181-187: `sendOffer`; the callbacks passed to `then` run when the promise settles
(`setAndSendLocalDescription` on fulfilment).  Throws when `pc` is undefined. -/
def sendOffer (s : Page) : Except JsError Page :=
  match s.pc with
  | none => .error .TypeError
  | some p => .ok { s with calls := s.calls ++ [Call.createOffer p] }

/-- Lines 189-195: `sendAnswer`. -/
def sendAnswer (s : Page) : Except JsError Page :=
  match s.pc with
  | none => .error .TypeError
  | some p => .ok { s with calls := s.calls ++ [Call.createAnswer p] }

/-- Lines 197-201: `setAndSendLocalDescription`. -/
def setAndSendLocalDescription (s : Page) (sessionDescription : SignalingData) :
    Except JsError Page :=
  match s.pc with
  | none => .error .TypeError
  | some p =>
    .ok (sendData { s with calls := s.calls ++ [Call.setLocalDescription p sessionDescription] }
      sessionDescription)

/-- Lines 203-211: `onIceCandidate`; `candidate` is `event.candidate`, which the socket sends
as the dictionary of its members. -/
def onIceCandidate (s : Page) (candidate : Option IceCandidate) : Page :=
  match candidate with
  | some c =>
    sendData s ⟨"candidate", "", CandidateValue.dictionary c.candidate c.sdpMid c.sdpMLineIndex⟩
  | none => s

/-- Lines 213-251: `onTrack`; `track` is `event.track` and `streams` is `event.streams`.  There
is no try/catch here: a missing insertable-streams class throws out of the handler. -/
def onTrack (s : Page) (track : Track) (streams : List MediaStream) : Except JsError Page :=
  if s.insertInboundTonePulse then
    if s.insertableStreams then
      let t := s.transforms
      let g := s.generators
      .ok { s with processor := some track, transformer := some t, generator := some g,
                   transforms := t + 1, generators := g + 1,
                   calls := s.calls ++ [Call.pipe track t g],
                   srcObject := some [Track.generator g] }
    else .error .ReferenceError
  else .ok { s with srcObject := streams.head? }

/-- Lines 234-242: the handler `onTrack` attaches with `promise.catch` to its pipe. -/
def onTrack_catch (s : Page) (source : Track) (sink : Nat) (aborted : Bool) : Page :=
  let s :=
    if aborted then
      { s with calls := s.calls ++ [Call.consoleLog "Shutting down streams after abort."] }
    else { s with calls := s.calls ++ [Call.consoleError "Error from stream transform:"] }
  { s with calls := s.calls ++ [Call.cancel source, Call.abort sink] }

/-- Lines 253-267: `handleSignalingData`.  A message of any other type falls through the
switch.  `pc.` on an undefined `pc` throws a `TypeError`, before the argument of the call is
evaluated.  `new RTCSessionDescription(data)` does not throw for the types `"offer"` and
`"answer"`, and the description is written as the message it was made from;
`new RTCIceCandidate(data.candidate)` can throw, see `RTCIceCandidate`. -/
def handleSignalingData (s : Page) (data : SignalingData) : Except JsError Page :=
  if data.type = "offer" then
    let s := createPeerConnection s
    match s.pc with
    | none => .error .TypeError
    | some p => sendAnswer { s with calls := s.calls ++ [Call.setRemoteDescription p data] }
  else if data.type = "answer" then
    match s.pc with
    | none => .error .TypeError
    | some p => .ok { s with calls := s.calls ++ [Call.setRemoteDescription p data] }
  else if data.type = "candidate" then
    match s.pc with
    | none => .error .TypeError
    | some p =>
      match RTCIceCandidate data.candidate with
      | .error e => .error e
      | .ok candidate => .ok { s with calls := s.calls ++ [Call.addIceCandidate p candidate] }
  else .ok s

/-- The events the page reacts to: the socket events `ready` and `data`, the fulfilment of a
`createOffer()` or `createAnswer()` promise with a description, the rejection of either, and
the connection events `icecandidate` and `track`. -/
inductive Event where
  | ready
  | data (data : SignalingData)
  | fulfilled (sessionDescription : SignalingData)
  | offerRejected
  | answerRejected
  | icecandidate (candidate : Option IceCandidate)
  | track (track : Track) (streams : List MediaStream)
  deriving DecidableEq, Repr

/-- The handler registered for each event (lines 102-112, 183-186, 191-194, 139-140). -/
def dispatch (s : Page) : Event → Except JsError Page
  | .ready => sendOffer (createPeerConnection s)
  | .data d => handleSignalingData s d
  | .fulfilled d => setAndSendLocalDescription s d
  | .offerRejected =>
    .ok { s with calls := s.calls ++ [Call.consoleError "Send offer failed: "] }
  | .answerRejected =>
    .ok { s with calls := s.calls ++ [Call.consoleError "Send answer failed: "] }
  | .track t streams => onTrack s t streams
  | .icecandidate c => .ok (onIceCandidate s c)

/-- One turn of the event loop: an exception that escapes a handler ends that handler, and the
page goes on with the next event.  In every case in which a handler of this model throws it has
not changed the page before. -/
def step (s : Page) (e : Event) : Page :=
  match dispatch s e with
  | .ok s' => s'
  | .error _ => s

/-- The page after a sequence of events. -/
def run (s : Page) (events : List Event) : Page := events.foldl step s

/-- Whether every `addIceCandidate` call of a log is made on a connection on which
`setRemoteDescription` was called earlier in the log; `described` lists the connections that
already had the call. -/
def candidatesAfterRemote : List Nat → List Call → Bool
  | _, [] => true
  | described, Call.setRemoteDescription p _ :: rest =>
    candidatesAfterRemote (p :: described) rest
  | described, Call.addIceCandidate p _ :: rest =>
    decide (p ∈ described) && candidatesAfterRemote described rest
  | described, _ :: rest => candidatesAfterRemote described rest

/-- The connections on which `setRemoteDescription` has been called by the end of a log,
added to those in `described`. -/
def describedIn : List Nat → List Call → List Nat
  | described, [] => described
  | described, Call.setRemoteDescription p _ :: rest => describedIn (p :: described) rest
  | described, _ :: rest => describedIn described rest

/-- The candidates applied with `addIceCandidate`, each with the connection it was applied
to, in the order of the calls. -/
def appliedOn (calls : List Call) : List (Nat × IceCandidate) :=
  calls.filterMap (fun c => match c with
    | Call.addIceCandidate p candidate => some (p, candidate)
    | _ => none)

/-- Reference for the handling of candidates, following the words "each candidate is applied
at once to the current connection": going through the messages in the order received, with
`current` the connection that exists (if any) and `next` the number of the next connection,
an offer makes connection `next` the current one, and a candidate message whose candidate is
well formed is applied to the current connection when there is one and dropped otherwise. -/
def expectedApplied : Option Nat → Nat → List SignalingData → List (Nat × IceCandidate)
  | _, _, [] => []
  | current, next, d :: rest =>
    if d.type = "offer" then expectedApplied (some next) (next + 1) rest
    else if d.type = "candidate" then
      match current with
      | none => expectedApplied current next rest
      | some p =>
        match RTCIceCandidate d.candidate with
        | .error _ => expectedApplied current next rest
        | .ok c => (p, c) :: expectedApplied current next rest
    else expectedApplied current next rest

end Signaling

section TransformFacts

variable {α : Type} [LinearOrderedField α]


theorem addWarbledTone_range (sin : α → α) (PI phaseA phaseB dt : α) (start : Nat)
    (buffer : Nat → α) (len j : Nat) :
    (List.range len).foldl (fun (buf : Nat → α) (i : Nat) =>
      Function.update buf (start + i)
        (warbledSample sin PI phaseA phaseB dt (buf (start + i)) i)) buffer j =
      if start ≤ j ∧ j < start + len then
        warbledSample sin PI phaseA phaseB dt (buffer j) (j - start)
      else buffer j := by
  induction len with
  | zero =>
    have h : ¬ (start ≤ j ∧ j < start + 0) := by omega
    simp only [List.range_zero, List.foldl_nil, if_neg h]
  | succ n ih =>
    rw [List.range_succ, List.foldl_append]
    simp only [List.foldl_cons, List.foldl_nil]
    by_cases hj : j = start + n
    · subst hj
      rw [Function.update_same, ih]
      simp
    · rw [Function.update_noteq hj, ih]
      by_cases h1 : start ≤ j ∧ j < start + n
      · have h2 : start ≤ j ∧ j < start + (n + 1) := ⟨h1.1, by omega⟩
        rw [if_pos h1, if_pos h2]
      · have h2 : ¬ (start ≤ j ∧ j < start + (n + 1)) := by
          intro h
          exact h1 ⟨h.1, by omega⟩
        rw [if_neg h1, if_neg h2]

theorem addWarbledTone_apply (sin : α → α) (PI phaseA phaseB dt : α) (samples : View)
    (buffer : Nat → α) (j : Nat) :
    addWarbledTone sin PI phaseA phaseB dt samples buffer j =
      if samples.start ≤ j ∧ j < samples.start + samples.length then
        warbledSample sin PI phaseA phaseB dt (buffer j) (j - samples.start)
      else buffer j :=
  addWarbledTone_range sin PI phaseA phaseB dt samples.start buffer samples.length j

/-- What a successful channel step did: the plane went through `warbledSample` into the
elements `numberOfFrames * c ..`, everything else is untouched, and the plane fitted. -/
theorem channelStep_ok (sin : α → α) (PI phaseA phaseB dt : α) (data : AudioData α)
    (buffer buffer' : Nat → α) (c : Nat)
    (h : channelStep sin PI phaseA phaseB dt data buffer c = .ok buffer') :
    c < data.numberOfChannels ∧
    (data.numberOfFrames = 0 ∨ data.numberOfFrames * (c + 1) ≤ buffer_size) ∧
    ∀ j, buffer' j =
      if data.numberOfFrames * c ≤ j ∧ j < data.numberOfFrames * c + data.numberOfFrames then
        warbledSample sin PI phaseA phaseB dt (data.plane c (j - data.numberOfFrames * c))
          (j - data.numberOfFrames * c)
      else buffer j := by
  unfold channelStep AudioData.copyTo at h
  simp only [subarray] at h
  split_ifs at h with h1 h2
  simp only [Except.ok.injEq] at h
  have hc : c < data.numberOfChannels := by omega
  refine ⟨hc, ?_, ?_⟩
  · by_cases hn : data.numberOfFrames = 0
    · exact Or.inl hn
    · right
      simp only [Nat.mul_succ]
      omega
  · intro j
    rw [← h, addWarbledTone_apply]
    by_cases hn : data.numberOfFrames = 0
    · simp [hn]
    · have hfit : data.numberOfFrames * c + data.numberOfFrames ≤ buffer_size := by omega
      have hs : min (data.numberOfFrames * c) buffer_size = data.numberOfFrames * c := by omega
      have he : min (data.numberOfFrames * c + data.numberOfFrames) buffer_size
          = data.numberOfFrames * c + data.numberOfFrames := by omega
      simp only [hs, he, Nat.add_sub_cancel_left]
      by_cases hj : data.numberOfFrames * c ≤ j
          ∧ j < data.numberOfFrames * c + data.numberOfFrames
      · simp only [if_pos hj]
      · simp only [if_neg hj]

/-- A channel step succeeds when the plane exists and fits into the scratch buffer. -/
theorem channelStep_total (sin : α → α) (PI phaseA phaseB dt : α) (data : AudioData α)
    (buffer : Nat → α) (c : Nat) (hc : c < data.numberOfChannels)
    (hfit : data.numberOfFrames * (c + 1) ≤ buffer_size) :
    ∃ buffer', channelStep sin PI phaseA phaseB dt data buffer c = .ok buffer' := by
  unfold channelStep AudioData.copyTo
  simp only [subarray]
  simp only [Nat.mul_succ] at hfit
  have h1 : ¬ data.numberOfChannels ≤ c := by omega
  have h2 : ¬ (min (data.numberOfFrames * c + data.numberOfFrames) buffer_size
      - min (data.numberOfFrames * c) buffer_size < data.numberOfFrames) := by omega
  simp only [if_neg h1, if_neg h2]
  exact ⟨_, rfl⟩

theorem channelLoop_succ (sin : α → α) (PI phaseA phaseB dt : α) (data : AudioData α)
    (k : Nat) (buffer : Nat → α) :
    channelLoop sin PI phaseA phaseB dt data (k + 1) buffer =
      match channelLoop sin PI phaseA phaseB dt data k buffer with
      | .error e => .error e
      | .ok mid => channelStep sin PI phaseA phaseB dt data mid k := by
  unfold channelLoop
  rw [List.range_succ, List.foldlM_append]
  cases List.foldlM (channelStep sin PI phaseA phaseB dt data) buffer (List.range k) with
  | error e => rfl
  | ok mid =>
    show List.foldlM (channelStep sin PI phaseA phaseB dt data) mid [k] = _
    simp only [List.foldlM_cons, List.foldlM_nil]
    cases channelStep sin PI phaseA phaseB dt data mid k <;> rfl

/-- After a successful loop over `k` channels, every processed plane sits at its offset in the
buffer, transformed sample by sample; the rest of the buffer is untouched. -/
theorem channelLoop_ok (sin : α → α) (PI phaseA phaseB dt : α) (data : AudioData α)
    (k : Nat) (buffer : Nat → α) :
    ∀ buffer', channelLoop sin PI phaseA phaseB dt data k buffer = .ok buffer' →
      k ≤ data.numberOfChannels ∧
      (data.numberOfFrames = 0 ∨ data.numberOfFrames * k ≤ buffer_size) ∧
      (∀ c i, c < k → i < data.numberOfFrames →
        buffer' (data.numberOfFrames * c + i) =
          warbledSample sin PI phaseA phaseB dt (data.plane c i) i) ∧
      (∀ j, data.numberOfFrames * k ≤ j → buffer' j = buffer j) := by
  induction k with
  | zero =>
    intro buffer' h
    simp only [channelLoop, List.range_zero, List.foldlM_nil] at h
    cases h
    refine ⟨Nat.zero_le _, Or.inr (by simp), ?_, fun j _ => rfl⟩
    intro c i hc
    omega
  | succ k ih =>
    intro buffer' h
    rw [channelLoop_succ] at h
    cases hmid : channelLoop sin PI phaseA phaseB dt data k buffer with
    | error e => rw [hmid] at h; cases h
    | ok mid =>
      rw [hmid] at h
      simp only at h
      obtain ⟨_, _, hdone, hrest⟩ := ih mid hmid
      obtain ⟨hc, hfit, hstep⟩ := channelStep_ok sin PI phaseA phaseB dt data mid buffer' k h
      refine ⟨hc, hfit, ?_, ?_⟩
      · intro c i hck hi
        rw [hstep]
        by_cases hlast : c = k
        · subst hlast
          have hin : data.numberOfFrames * c ≤ data.numberOfFrames * c + i
              ∧ data.numberOfFrames * c + i
                < data.numberOfFrames * c + data.numberOfFrames := ⟨by omega, by omega⟩
          rw [if_pos hin, Nat.add_sub_cancel_left]
        · have hlt : c < k := by omega
          have hle : data.numberOfFrames * (c + 1) ≤ data.numberOfFrames * k :=
            Nat.mul_le_mul_left _ hlt
          rw [Nat.mul_succ] at hle
          have hout : ¬ (data.numberOfFrames * k ≤ data.numberOfFrames * c + i
              ∧ data.numberOfFrames * c + i
                < data.numberOfFrames * k + data.numberOfFrames) := by omega
          rw [if_neg hout]
          exact hdone c i hlt hi
      · intro j hj
        rw [Nat.mul_succ] at hj
        rw [hstep]
        have hout : ¬ (data.numberOfFrames * k ≤ j
            ∧ j < data.numberOfFrames * k + data.numberOfFrames) := by omega
        rw [if_neg hout]
        exact hrest j (by omega)

/-- The channel loop succeeds when all planes fit into the scratch buffer. -/
theorem channelLoop_total (sin : α → α) (PI phaseA phaseB dt : α) (data : AudioData α)
    (k : Nat) (buffer : Nat → α) (hk : k ≤ data.numberOfChannels)
    (hfit : data.numberOfFrames * k ≤ buffer_size) :
    ∃ buffer', channelLoop sin PI phaseA phaseB dt data k buffer = .ok buffer' := by
  induction k with
  | zero => exact ⟨buffer, rfl⟩
  | succ k ih =>
    have hle : data.numberOfFrames * k ≤ data.numberOfFrames * (k + 1) :=
      Nat.mul_le_mul_left _ (Nat.le_succ k)
    obtain ⟨mid, hmid⟩ := ih (by omega) (by omega)
    obtain ⟨buffer', hstep⟩ :=
      channelStep_total sin PI phaseA phaseB dt data mid k (by omega) hfit
    exact ⟨buffer', by rw [channelLoop_succ, hmid]; exact hstep⟩

/-- Everything a completed invocation did. -/
theorem pulseToneTransform_ok (sin : α → α) (PI : α) (st st' : ToneState α)
    (data : AudioData α) (controller controller' : List (AudioData α))
    (h : pulseToneTransform sin PI st data controller = .ok (st', controller')) :
    (0 < data.sampleRate ∧ 0 < data.numberOfFrames ∧ 0 < data.numberOfChannels
      ∧ data.numberOfFrames * data.numberOfChannels ≤ buffer_size) ∧
    st'.phaseA = advancePhase PI st.phaseA (omegaA PI) data.numberOfFrames
        (1.0 / data.sampleRate) ∧
    st'.phaseB = advancePhase PI st.phaseB (omegaB PI) data.numberOfFrames
        (1.0 / data.sampleRate) ∧
    ∃ frame, controller' = controller ++ [frame] ∧
      frame.sampleRate = data.sampleRate ∧ frame.numberOfFrames = data.numberOfFrames ∧
      frame.numberOfChannels = data.numberOfChannels ∧ frame.timestamp = data.timestamp ∧
      ∀ c i, c < data.numberOfChannels → i < data.numberOfFrames →
        frame.plane c i =
          warbledSample sin PI st.phaseA st.phaseB (1.0 / data.sampleRate) (data.plane c i) i := by
  unfold pulseToneTransform at h
  simp only at h
  cases hloop : channelLoop sin PI st.phaseA st.phaseB (1.0 / data.sampleRate) data
      data.numberOfChannels st.buffer with
  | error e => rw [hloop] at h; cases h
  | ok buffer =>
    rw [hloop] at h
    simp only [AudioData.new] at h
    split_ifs at h with hbad
    simp only [Except.ok.injEq, Prod.mk.injEq] at h
    obtain ⟨hst, hctl⟩ := h
    obtain ⟨_, _, hdone, _⟩ := channelLoop_ok sin PI st.phaseA st.phaseB
      (1.0 / data.sampleRate) data data.numberOfChannels st.buffer buffer hloop
    have hvalid : 0 < data.sampleRate ∧ 0 < data.numberOfFrames ∧ 0 < data.numberOfChannels
        ∧ data.numberOfFrames * data.numberOfChannels ≤ buffer_size := by
      refine ⟨?_, ?_, ?_, ?_⟩
      · by_contra hneg
        exact hbad (Or.inl (not_lt.mp hneg))
      · by_contra hneg
        exact hbad (Or.inr (Or.inl (by omega)))
      · by_contra hneg
        exact hbad (Or.inr (Or.inr (Or.inl (by omega))))
      · by_contra hneg
        exact hbad (Or.inr (Or.inr (Or.inr (by omega))))
    refine ⟨hvalid, ?_, ?_, _, hctl.symm, rfl, rfl, rfl, rfl, ?_⟩
    · rw [← hst]
    · rw [← hst]
    · intro c i hc hi
      exact hdone c i hc hi

/-- An invocation on a valid frame that fits into the scratch buffer completes. -/
theorem pulseToneTransform_total (sin : α → α) (PI : α) (st : ToneState α)
    (data : AudioData α) (controller : List (AudioData α))
    (hrate : 0 < data.sampleRate) (hframes : 0 < data.numberOfFrames)
    (hchannels : 0 < data.numberOfChannels)
    (hfit : data.numberOfFrames * data.numberOfChannels ≤ buffer_size) :
    ∃ st' controller', pulseToneTransform sin PI st data controller = .ok (st', controller') := by
  obtain ⟨buffer, hloop⟩ := channelLoop_total sin PI st.phaseA st.phaseB
    (1.0 / data.sampleRate) data data.numberOfChannels st.buffer (le_refl _) hfit
  unfold pulseToneTransform
  simp only [hloop, AudioData.new]
  have hgood : ¬ (data.sampleRate ≤ 0 ∨ data.numberOfFrames = 0 ∨ data.numberOfChannels = 0
      ∨ buffer_size < data.numberOfFrames * data.numberOfChannels) := by
    intro hbad
    rcases hbad with h | h | h | h
    · exact absurd hrate (not_lt.mpr h)
    · omega
    · omega
    · omega
  rw [if_neg hgood]
  exact ⟨_, _, rfl⟩

theorem warbledSample_bounds (sin : α → α) (PI phaseA phaseB dt sample : α) (i : Nat) :
    -1 ≤ warbledSample sin PI phaseA phaseB dt sample i
      ∧ warbledSample sin PI phaseA phaseB dt sample i ≤ 1 := by
  unfold warbledSample
  have hlo : (-1.0 : α) = -1 := by norm_num
  have hhi : (1.0 : α) = 1 := by norm_num
  simp only [hlo, hhi]
  refine ⟨le_min (le_max_left _ _) (by norm_num), min_le_right _ _⟩

/-- An oversized plane makes the very first channel step throw. -/
theorem pulseToneTransform_oversize (sin : α → α) (PI : α) (st : ToneState α)
    (data : AudioData α) (controller : List (AudioData α))
    (hchannels : 0 < data.numberOfChannels) (hbig : buffer_size < data.numberOfFrames) :
    pulseToneTransform sin PI st data controller = .error .RangeError := by
  obtain ⟨n, hn⟩ : ∃ n, data.numberOfChannels = n + 1 :=
    ⟨data.numberOfChannels - 1, by omega⟩
  have hloop : channelLoop sin PI st.phaseA st.phaseB (1.0 / data.sampleRate) data
      data.numberOfChannels st.buffer = .error .RangeError := by
    rw [hn]
    clear hn
    induction n with
    | zero =>
      rw [channelLoop_succ]
      simp only [channelLoop, List.range_zero, List.foldlM_nil, pure, Except.pure]
      unfold channelStep AudioData.copyTo
      simp only [subarray]
      have h1 : ¬ data.numberOfChannels ≤ 0 := by omega
      have h2 : min (data.numberOfFrames * 0 + data.numberOfFrames) buffer_size
          - min (data.numberOfFrames * 0) buffer_size < data.numberOfFrames := by
        simp only [Nat.mul_zero, Nat.zero_add]
        omega
      simp only [if_neg h1, if_pos h2]
    | succ n ih =>
      rw [channelLoop_succ, ih]
  unfold pulseToneTransform
  simp only [hloop]

/-- An invocation on a valid frame that fits enqueues one frame. -/
theorem pulseToneTransform_total_frame (sin : α → α) (PI : α) (st : ToneState α)
    (data : AudioData α) (controller : List (AudioData α))
    (hrate : 0 < data.sampleRate) (hframes : 0 < data.numberOfFrames)
    (hchannels : 0 < data.numberOfChannels)
    (hfit : data.numberOfFrames * data.numberOfChannels ≤ buffer_size) :
    ∃ st' frame, pulseToneTransform sin PI st data controller
      = .ok (st', controller ++ [frame]) := by
  obtain ⟨st', controller', h⟩ :=
    pulseToneTransform_total sin PI st data controller hrate hframes hchannels hfit
  obtain ⟨_, _, _, frame, hc, _⟩ :=
    pulseToneTransform_ok sin PI st st' data controller controller' h
  exact ⟨st', frame, hc ▸ h⟩

theorem getPulseToneTransform_phaseA :
    (getPulseToneTransform : ToneState α).phaseA = 0 := by
  show (0.0 : α) = 0
  norm_num

theorem getPulseToneTransform_phaseB :
    (getPulseToneTransform : ToneState α).phaseB = 0 := by
  show (0.0 : α) = 0
  norm_num

end TransformFacts

section StreamFacts

theorem two_pi_real : two_pi Real.pi = 2 * Real.pi := by
  unfold two_pi
  norm_num

/-- The code's `min(max(-1, y), 1)` is the spec's `clamp(y, -1, 1)`. -/
theorem min_max_eq_clamp (y : ℝ) : min (max (-1.0) y) 1.0 = clamp y (-1) 1 := by
  have hlo : (-1.0 : ℝ) = -1 := by norm_num
  have hhi : (1.0 : ℝ) = 1 := by norm_num
  rw [hlo, hhi, clamp, max_min_distrib_left]
  have h : max (-1 : ℝ) 1 = 1 := max_eq_right (by norm_num)
  rw [h]

/-- With stored phases that differ from `omega * T` by whole turns, the sample the code
computes is the reference sample at stream time `T`. -/
theorem warbledSample_eq_reference (T phaseA phaseB : ℝ) (m n : ℕ) (data : AudioData ℝ)
    (c i : Nat)
    (hA : phaseA = omegaA Real.pi * T - m * (2 * Real.pi))
    (hB : phaseB = omegaB Real.pi * T - n * (2 * Real.pi)) :
    warbledSample Real.sin Real.pi phaseA phaseB (1.0 / data.sampleRate) (data.plane c i) i
      = referenceSample Real.sin Real.pi T data c i := by
  unfold warbledSample referenceSample
  simp only
  have hsA : Real.sin (phaseA + omegaA Real.pi * ((i : ℝ) * (1.0 / data.sampleRate)))
      = Real.sin (2 * Real.pi * 120 * (T + (i : ℝ) / data.sampleRate)) := by
    rw [← Real.sin_sub_nat_mul_two_pi (2 * Real.pi * 120 * (T + (i : ℝ) / data.sampleRate)) m]
    congr 1
    rw [hA]
    unfold omegaA
    norm_num
    ring
  have hsB : Real.sin (phaseB + omegaB Real.pi * ((i : ℝ) * (1.0 / data.sampleRate)))
      = Real.sin (2 * Real.pi * 0.75 * (T + (i : ℝ) / data.sampleRate)) := by
    rw [← Real.sin_sub_nat_mul_two_pi (2 * Real.pi * 0.75 * (T + (i : ℝ) / data.sampleRate)) n]
    congr 1
    rw [hB]
    unfold omegaB
    norm_num
    ring
  rw [hsA, hsB, min_max_eq_clamp]
  congr 1
  ring

/-- Advancing a phase keeps it a whole number of turns below `omega * time`. -/
theorem advancePhase_congruent (omega T phase sampleRate : ℝ) (m numberOfFrames : ℕ)
    (h : phase = omega * T - m * (2 * Real.pi)) :
    ∃ m' : ℕ, advancePhase Real.pi phase omega numberOfFrames (1.0 / sampleRate)
      = omega * (T + (numberOfFrames : ℝ) / sampleRate) - m' * (2 * Real.pi) := by
  unfold advancePhase
  simp only [two_pi_real]
  split_ifs
  · refine ⟨m + 1, ?_⟩
    rw [h]
    push_cast
    norm_num
    ring
  · refine ⟨m, ?_⟩
    rw [h]
    norm_num
    ring

theorem elapsed_cons (data : AudioData ℝ) (rest : List (AudioData ℝ)) :
    elapsed (data :: rest) = (data.numberOfFrames : ℝ) / data.sampleRate + elapsed rest := by
  simp [elapsed]

/-- In exact arithmetic: the frames a stream enqueues, from a state whose phases are whole
turns below `omega * T`: output `k` belongs to input `k`, has its shape, and its samples are the reference
samples at stream time `T` plus the time of the inputs before `k`; a stream that ends without
an exception leaves phases that are again whole turns below `omega * time`. -/
theorem transformStream_reference (frames : List (AudioData ℝ)) :
    ∀ (st : ToneState ℝ) (controller : List (AudioData ℝ)) (T : ℝ),
      (∃ m : ℕ, st.phaseA = omegaA Real.pi * T - m * (2 * Real.pi)) →
      (∃ n : ℕ, st.phaseB = omegaB Real.pi * T - n * (2 * Real.pi)) →
      ∃ outs, (transformStream Real.sin Real.pi st frames controller).1 = controller ++ outs ∧
        (∀ k frame, outs[k]? = some frame →
          ∃ data, frames[k]? = some data ∧
            frame.numberOfFrames = data.numberOfFrames ∧
            frame.numberOfChannels = data.numberOfChannels ∧
            ∀ c i, c < data.numberOfChannels → i < data.numberOfFrames →
              frame.plane c i
                = referenceSample Real.sin Real.pi (T + elapsed (frames.take k)) data c i) ∧
        (∀ st', (transformStream Real.sin Real.pi st frames controller).2 = .ok st' →
          outs.length = frames.length ∧
          (∃ m : ℕ, st'.phaseA
            = omegaA Real.pi * (T + elapsed frames) - m * (2 * Real.pi)) ∧
          (∃ n : ℕ, st'.phaseB
            = omegaB Real.pi * (T + elapsed frames) - n * (2 * Real.pi))) := by
  induction frames with
  | nil =>
    intro st controller T hA hB
    refine ⟨[], by simp [transformStream], ?_, ?_⟩
    · intro k frame hk
      simp at hk
    · intro st' hst
      simp only [transformStream, Except.ok.injEq] at hst
      subst hst
      refine ⟨rfl, ?_, ?_⟩
      · simpa [elapsed] using hA
      · simpa [elapsed] using hB
  | cons data rest ih =>
    intro st controller T hA hB
    obtain ⟨m, hm⟩ := hA
    obtain ⟨n, hn⟩ := hB
    cases hstep : pulseToneTransform Real.sin Real.pi st data controller with
    | error e =>
      refine ⟨[], by simp [transformStream, hstep], ?_, ?_⟩
      · intro k frame hk
        simp at hk
      · intro st' hst
        simp [transformStream, hstep] at hst
    | ok result =>
      obtain ⟨st1, controller1⟩ := result
      obtain ⟨_, hpA, hpB, frame, hc, _, hf, hch, _, hs⟩ :=
        pulseToneTransform_ok Real.sin Real.pi st st1 data controller controller1 hstep
      obtain ⟨mA, hmA⟩ := advancePhase_congruent (omegaA Real.pi) T st.phaseA
        data.sampleRate m data.numberOfFrames hm
      obtain ⟨mB, hmB⟩ := advancePhase_congruent (omegaB Real.pi) T st.phaseB
        data.sampleRate n data.numberOfFrames hn
      obtain ⟨outs, hout, hsamples, hfinal⟩ := ih st1 controller1
        (T + (data.numberOfFrames : ℝ) / data.sampleRate) ⟨mA, hpA.trans hmA⟩
        ⟨mB, hpB.trans hmB⟩
      have hunfold : transformStream Real.sin Real.pi st (data :: rest) controller
          = transformStream Real.sin Real.pi st1 rest controller1 := by
        simp [transformStream, hstep]
      refine ⟨frame :: outs, ?_, ?_, ?_⟩
      · rw [hunfold, hout, hc]
        simp
      · intro k fr hk
        cases k with
        | zero =>
          simp only [List.getElem?_cons_zero, Option.some.injEq] at hk
          subst hk
          refine ⟨data, by simp, hf, hch, ?_⟩
          intro c i hci hii
          rw [hs c i hci hii]
          simp only [List.take_zero, elapsed, List.map_nil, List.sum_nil, add_zero]
          exact warbledSample_eq_reference T st.phaseA st.phaseB m n data c i hm hn
        | succ k =>
          simp only [List.getElem?_cons_succ] at hk
          obtain ⟨d, hd, hdf, hdc, hds⟩ := hsamples k fr hk
          refine ⟨d, by simpa using hd, hdf, hdc, ?_⟩
          intro c i hci hii
          rw [hds c i hci hii, List.take_succ_cons, elapsed_cons, add_assoc]
      · intro st' hst
        rw [hunfold] at hst
        obtain ⟨hlen, hfA, hfB⟩ := hfinal st' hst
        refine ⟨by simp [hlen], ?_, ?_⟩
        · rw [elapsed_cons, ← add_assoc]
          exact hfA
        · rw [elapsed_cons, ← add_assoc]
          exact hfB

/-- One 480-frame chunk at 48 kHz advances `phaseA` by `2.4 * pi`, which the single
subtraction of line 81 turns into a net growth of `0.4 * pi`. -/
theorem advancePhase_chunk480 (phase : ℝ) (h : 0 ≤ phase) :
    advancePhase Real.pi phase (omegaA Real.pi) 480 (1.0 / 48000) = phase + 2 * Real.pi / 5 := by
  unfold advancePhase omegaA
  simp only [two_pi_real]
  have hpi := Real.pi_pos
  have hgt : phase + 2.0 * Real.pi * 120.0 * ((480 : ℕ) : ℝ) * (1.0 / 48000) > 2 * Real.pi := by
    norm_num
    nlinarith
  rw [if_pos hgt]
  norm_num
  ring

/-- A stream of `k` chunks of 480 frames at 48 kHz never throws, and in exact arithmetic
`phaseA` grows by `0.4 * pi` with every chunk. -/
theorem transformStream_chunk480 (k : ℕ) :
    ∀ (st : ToneState ℝ) (controller : List (AudioData ℝ)), 0 ≤ st.phaseA →
      ∃ st', (transformStream Real.sin Real.pi st (List.replicate k chunk480) controller).2
          = .ok st' ∧ st'.phaseA = st.phaseA + k * (2 * Real.pi / 5) := by
  induction k with
  | zero =>
    intro st controller _
    exact ⟨st, by simp [transformStream], by simp⟩
  | succ k ih =>
    intro st controller hst
    obtain ⟨st1, controller1, hstep⟩ := pulseToneTransform_total Real.sin Real.pi st
      (chunk480 : AudioData ℝ) controller (by norm_num [chunk480])
      (by decide) (by decide) (by decide)
    obtain ⟨_, hpA, _⟩ :=
      pulseToneTransform_ok Real.sin Real.pi st st1 chunk480 controller controller1 hstep
    have hadv : st1.phaseA = st.phaseA + 2 * Real.pi / 5 := by
      rw [hpA]
      exact advancePhase_chunk480 st.phaseA hst
    have hpos : 0 ≤ st1.phaseA := by
      rw [hadv]
      have := Real.pi_pos
      linarith
    obtain ⟨st', hrun, hphase⟩ := ih st1 controller1 hpos
    refine ⟨st', ?_, ?_⟩
    · simp only [List.replicate_succ, transformStream, hstep]
      exact hrun
    · rw [hphase, hadv]
      push_cast
      ring

end StreamFacts

section SignalingFacts

theorem describedIn_append (xs ys : List Call) :
    ∀ d, describedIn d (xs ++ ys) = describedIn (describedIn d xs) ys := by
  induction xs with
  | nil => intro d; rfl
  | cons x xs ih =>
    intro d
    cases x <;> simp [describedIn, ih]

theorem candidatesAfterRemote_append (xs ys : List Call) :
    ∀ d, candidatesAfterRemote d (xs ++ ys)
      = (candidatesAfterRemote d xs && candidatesAfterRemote (describedIn d xs) ys) := by
  induction xs with
  | nil => intro d; simp [candidatesAfterRemote, describedIn]
  | cons x xs ih =>
    intro d
    cases x <;> simp [candidatesAfterRemote, describedIn, ih, Bool.and_assoc]

theorem appliedOn_append (xs ys : List Call) :
    appliedOn (xs ++ ys) = appliedOn xs ++ appliedOn ys := by
  simp [appliedOn, List.filterMap_append]

/-- What `createPeerConnection` does in each of its four paths: a new connection becomes the
current one, and the calls appended after `new RTCPeerConnection` are a pipe and an `addStream`,
an `addStream` alone, or the error logged by the catch. -/
theorem createPeerConnection_spec (s : Page) :
    (createPeerConnection s).pc = some s.connections ∧
    (createPeerConnection s).connections = s.connections + 1 ∧
    ∃ attach, (createPeerConnection s).calls
        = s.calls ++ Call.newRTCPeerConnection s.connections :: attach ∧
      (∀ d, describedIn d attach = d) ∧ (∀ d, candidatesAfterRemote d attach = true) ∧
      appliedOn attach = [] := by
  unfold createPeerConnection
  simp only
  split_ifs
  · split
    · exact ⟨rfl, rfl, [Call.consoleError "PeerConnection failed: "], by simp,
        fun d => rfl, fun d => rfl, rfl⟩
    · next track _ _ =>
      exact ⟨rfl, rfl, [Call.pipe track s.transforms s.generators,
        Call.addStream s.connections [Track.generator s.generators]], by simp,
        fun d => rfl, fun d => rfl, rfl⟩
  · exact ⟨rfl, rfl, [Call.consoleError "PeerConnection failed: "], by simp,
      fun d => rfl, fun d => rfl, rfl⟩
  · exact ⟨rfl, rfl, [Call.addStream s.connections s.localStream], by simp,
      fun d => rfl, fun d => rfl, rfl⟩

/-- An offer is handled the same way in every state of the page: a new connection is made
current, the offer is set on it as remote description, and an answer is requested. -/
theorem handleSignalingData_offer (s : Page) (d : SignalingData) (h : d.type = "offer") :
    handleSignalingData s d = .ok { createPeerConnection s with
      calls := (createPeerConnection s).calls
        ++ [Call.setRemoteDescription s.connections d, Call.createAnswer s.connections] } := by
  have hpc := (createPeerConnection_spec s).1
  unfold handleSignalingData
  rw [if_pos h]
  simp only [hpc, sendAnswer, List.append_assoc, List.singleton_append]

theorem handleSignalingData_answer (s : Page) (d : SignalingData) (h : d.type = "answer") :
    handleSignalingData s d = match s.pc with
      | none => .error .TypeError
      | some p => .ok { s with calls := s.calls ++ [Call.setRemoteDescription p d] } := by
  unfold handleSignalingData
  have h1 : ¬ d.type = "offer" := by rw [h]; decide
  rw [if_neg h1, if_pos h]

theorem handleSignalingData_candidate (s : Page) (d : SignalingData)
    (h : d.type = "candidate") :
    handleSignalingData s d = match s.pc with
      | none => .error .TypeError
      | some p =>
        match RTCIceCandidate d.candidate with
        | .error e => .error e
        | .ok c => .ok { s with calls := s.calls ++ [Call.addIceCandidate p c] } := by
  unfold handleSignalingData
  have h1 : ¬ d.type = "offer" := by rw [h]; decide
  have h2 : ¬ d.type = "answer" := by rw [h]; decide
  rw [if_neg h1, if_neg h2, if_pos h]

theorem handleSignalingData_other (s : Page) (d : SignalingData)
    (h1 : ¬ d.type = "offer") (h2 : ¬ d.type = "answer") (h3 : ¬ d.type = "candidate") :
    handleSignalingData s d = .ok s := by
  unfold handleSignalingData
  rw [if_neg h1, if_neg h2, if_neg h3]

/-- What one inbound message does to the page, case by case. -/
theorem step_data_cases (s : Page) (d : SignalingData) :
    (d.type = "offer" ∧ step s (.data d) = { createPeerConnection s with
        calls := (createPeerConnection s).calls
          ++ [Call.setRemoteDescription s.connections d, Call.createAnswer s.connections] }) ∨
    (d.type ≠ "offer" ∧ d.type = "answer" ∧ ∃ p, s.pc = some p ∧
      step s (.data d) = { s with calls := s.calls ++ [Call.setRemoteDescription p d] }) ∨
    (d.type ≠ "offer" ∧ d.type ≠ "answer" ∧ d.type = "candidate" ∧
      ∃ p c, s.pc = some p ∧ RTCIceCandidate d.candidate = .ok c ∧
        step s (.data d) = { s with calls := s.calls ++ [Call.addIceCandidate p c] }) ∨
    (d.type ≠ "offer" ∧ step s (.data d) = s ∧
      (d.type = "candidate" → s.pc = none ∨ ∃ e, RTCIceCandidate d.candidate = .error e)) := by
  by_cases hoffer : d.type = "offer"
  · left
    exact ⟨hoffer, by simp only [step, dispatch, handleSignalingData_offer s d hoffer]⟩
  · right
    by_cases hanswer : d.type = "answer"
    · have hnc : ¬ d.type = "candidate" := by rw [hanswer]; decide
      cases hpc : s.pc with
      | none =>
        right; right
        refine ⟨hoffer, ?_, fun h => absurd h hnc⟩
        simp only [step, dispatch, handleSignalingData_answer s d hanswer, hpc]
      | some p =>
        left
        refine ⟨hoffer, hanswer, p, rfl, ?_⟩
        simp only [step, dispatch, handleSignalingData_answer s d hanswer, hpc]
    · by_cases hcandidate : d.type = "candidate"
      · cases hpc : s.pc with
        | none =>
          right; right
          refine ⟨hoffer, ?_, fun _ => Or.inl rfl⟩
          simp only [step, dispatch, handleSignalingData_candidate s d hcandidate, hpc]
        | some p =>
          cases hc : RTCIceCandidate d.candidate with
          | error e =>
            right; right
            refine ⟨hoffer, ?_, fun _ => Or.inr ⟨e, rfl⟩⟩
            simp only [step, dispatch, handleSignalingData_candidate s d hcandidate, hpc, hc]
          | ok c =>
            right; left
            refine ⟨hoffer, hanswer, hcandidate, p, c, rfl, rfl, ?_⟩
            simp only [step, dispatch, handleSignalingData_candidate s d hcandidate, hpc, hc]
      · right; right
        refine ⟨hoffer, ?_, fun h => absurd h hcandidate⟩
        simp only [step, dispatch, handleSignalingData_other s d hoffer hanswer hcandidate]

/-- One inbound message keeps the invariant "no candidate was applied to a connection without
an earlier `setRemoteDescription` on it, and the current connection has had one". -/
theorem step_data_invariant (s : Page) (d : SignalingData)
    (hinv : candidatesAfterRemote [] s.calls = true)
    (hcur : ∀ p, s.pc = some p → p ∈ describedIn [] s.calls) :
    candidatesAfterRemote [] (step s (.data d)).calls = true ∧
    (∀ p, (step s (.data d)).pc = some p → p ∈ describedIn [] (step s (.data d)).calls) := by
  rcases step_data_cases s d with ⟨_, hstep⟩ | ⟨_, _, p, hp, hstep⟩
    | ⟨_, _, _, p, c, hp, _, hstep⟩ | ⟨_, hstep, _⟩
  · obtain ⟨hpc, _, attach, hcalls, hdesc, hcand, _⟩ := createPeerConnection_spec s
    rw [hstep]
    simp only [hcalls]
    refine ⟨?_, ?_⟩
    · simp [candidatesAfterRemote_append, candidatesAfterRemote, describedIn, hinv, hcand]
    · intro q hq
      rw [hpc] at hq
      cases hq
      simp [describedIn_append, describedIn]
  · rw [hstep]
    refine ⟨?_, ?_⟩
    · simp [candidatesAfterRemote_append, candidatesAfterRemote, hinv]
    · intro q hq
      simp only [hp, Option.some.injEq] at hq
      subst hq
      simp [describedIn_append, describedIn]
  · rw [hstep]
    refine ⟨?_, ?_⟩
    · simp [candidatesAfterRemote_append, candidatesAfterRemote, hinv, hcur p hp]
    · intro q hq
      simp only [hp, Option.some.injEq] at hq
      subst hq
      simpa [describedIn_append, describedIn] using hcur p hp
  · rw [hstep]
    exact ⟨hinv, hcur⟩

/-- The invariant of `step_data_invariant` along a whole sequence of inbound messages. -/
theorem run_data_invariant (messages : List SignalingData) :
    ∀ s : Page, candidatesAfterRemote [] s.calls = true →
      (∀ p, s.pc = some p → p ∈ describedIn [] s.calls) →
      candidatesAfterRemote [] (run s (messages.map Event.data)).calls = true := by
  induction messages with
  | nil =>
    intro s hinv _
    exact hinv
  | cons d rest ih =>
    intro s hinv hcur
    obtain ⟨hinv1, hcur1⟩ := step_data_invariant s d hinv hcur
    exact ih (step s (.data d)) hinv1 hcur1

/-- One inbound message applies what the reference says, and leaves the page in the state
from which the reference goes on. -/
theorem step_data_applied (s : Page) (d : SignalingData) (rest : List SignalingData) :
    appliedOn (step s (.data d)).calls
        ++ expectedApplied (step s (.data d)).pc (step s (.data d)).connections rest
      = appliedOn s.calls ++ expectedApplied s.pc s.connections (d :: rest) := by
  rcases step_data_cases s d with ⟨hoffer, hstep⟩ | ⟨hoffer, hanswer, p, hp, hstep⟩
    | ⟨hoffer, hanswer, hcandidate, p, c, hp, hc, hstep⟩ | ⟨hoffer, hstep, hlost⟩
  · obtain ⟨hpc, hconn, attach, hcalls, _, _, happ⟩ := createPeerConnection_spec s
    have h1 : appliedOn (Call.newRTCPeerConnection s.connections :: attach) = [] := by
      show appliedOn ([Call.newRTCPeerConnection s.connections] ++ attach) = []
      rw [appliedOn_append, happ]
      rfl
    have h2 : appliedOn
        [Call.setRemoteDescription s.connections d, Call.createAnswer s.connections]
        = [] := rfl
    rw [hstep]
    simp only [hpc, hconn, hcalls]
    rw [appliedOn_append, appliedOn_append, h1, h2, List.append_nil, List.append_nil]
    simp only [expectedApplied, if_pos hoffer]
  · have hnc : ¬ d.type = "candidate" := by rw [hanswer]; decide
    have h2 : appliedOn [Call.setRemoteDescription p d] = [] := rfl
    rw [hstep]
    simp only
    rw [appliedOn_append, h2, List.append_nil]
    simp only [expectedApplied, if_neg hoffer, if_neg hnc]
  · have h2 : appliedOn [Call.addIceCandidate p c] = [(p, c)] := rfl
    rw [hstep]
    simp only
    rw [appliedOn_append, h2]
    simp only [expectedApplied, if_neg hoffer, if_pos hcandidate, hp, hc, List.append_assoc,
      List.singleton_append]
  · rw [hstep]
    by_cases hcandidate : d.type = "candidate"
    · rcases hlost hcandidate with hnone | ⟨e, he⟩
      · simp only [expectedApplied, if_neg hoffer, if_pos hcandidate, hnone]
      · cases hpc : s.pc with
        | none => simp only [expectedApplied, if_neg hoffer, if_pos hcandidate]
        | some p => simp only [expectedApplied, if_neg hoffer, if_pos hcandidate, he]
    · simp only [expectedApplied, if_neg hoffer, if_neg hcandidate]

/-- The candidates applied along a sequence of inbound messages are those of the reference,
on the same connections and in the same order, from every state of the page. -/
theorem run_data_applied (messages : List SignalingData) :
    ∀ s : Page, appliedOn (run s (messages.map Event.data)).calls
      = appliedOn s.calls ++ expectedApplied s.pc s.connections messages := by
  induction messages with
  | nil =>
    intro s
    simp [run, expectedApplied]
  | cons d rest ih =>
    intro s
    have hrun : run s ((d :: rest).map Event.data)
        = run (step s (.data d)) (rest.map Event.data) := rfl
    rw [hrun, ih (step s (.data d)), step_data_applied]

end SignalingFacts

section TransformClaims

variable {α : Type} [LinearOrderedField α]

/-- C1: an invocation of the transform that completes enqueues exactly one frame on the
controller, and that frame has the sample rate, frame count, channel count and timestamp of
the input frame; this holds for every input frame and every prior state of the instance. -/
theorem C1_one_output_frame_same_shape (sin : α → α) (PI : α) (st st' : ToneState α)
    (data : AudioData α) (controller controller' : List (AudioData α))
    (h : pulseToneTransform sin PI st data controller = .ok (st', controller')) :
    ∃ frame, controller' = controller ++ [frame] ∧
      frame.sampleRate = data.sampleRate ∧ frame.numberOfFrames = data.numberOfFrames ∧
      frame.numberOfChannels = data.numberOfChannels ∧ frame.timestamp = data.timestamp := by
  obtain ⟨_, _, _, frame, hc, h1, h2, h3, h4, _⟩ :=
    pulseToneTransform_ok sin PI st st' data controller controller' h
  exact ⟨frame, hc, h1, h2, h3, h4⟩

theorem C1_one_output_frame_same_shape_witness :
    ∃ st' controller',
      pulseToneTransform Real.sin Real.pi (getPulseToneTransform : ToneState ℝ) chunk480 []
        = .ok (st', controller') ∧
      ∃ frame, controller' = [] ++ [frame] ∧
        frame.sampleRate = (chunk480 : AudioData ℝ).sampleRate ∧
        frame.numberOfFrames = (chunk480 : AudioData ℝ).numberOfFrames ∧
        frame.numberOfChannels = (chunk480 : AudioData ℝ).numberOfChannels ∧
        frame.timestamp = (chunk480 : AudioData ℝ).timestamp := by
  obtain ⟨st', controller', h⟩ := pulseToneTransform_total Real.sin Real.pi
    (getPulseToneTransform : ToneState ℝ) chunk480 [] (by norm_num [chunk480])
    (by decide) (by decide) (by decide)
  exact ⟨st', controller', h,
    C1_one_output_frame_same_shape Real.sin Real.pi _ st' chunk480 [] controller' h⟩

/-- C2: whatever the sample values of the input frame and whatever the state of the instance
(so after any number of earlier invocations), every sample of the frame an invocation enqueues,
for every channel and every sample index of that frame, lies in the closed interval [-1, 1]. -/
theorem C2_output_samples_in_unit_interval (sin : α → α) (PI : α) (st st' : ToneState α)
    (data : AudioData α) (controller controller' : List (AudioData α))
    (h : pulseToneTransform sin PI st data controller = .ok (st', controller')) :
    ∃ frame, controller' = controller ++ [frame] ∧
      ∀ c i, c < frame.numberOfChannels → i < frame.numberOfFrames →
        -1 ≤ frame.plane c i ∧ frame.plane c i ≤ 1 := by
  obtain ⟨_, _, _, frame, hc, _, h2, h3, _, hs⟩ :=
    pulseToneTransform_ok sin PI st st' data controller controller' h
  refine ⟨frame, hc, ?_⟩
  intro c i hci hii
  rw [hs c i (h3 ▸ hci) (h2 ▸ hii)]
  exact warbledSample_bounds sin PI _ _ _ _ i

theorem C2_output_samples_in_unit_interval_witness :
    ∃ st' controller',
      pulseToneTransform Real.sin Real.pi (getPulseToneTransform : ToneState ℝ) chunk480 []
        = .ok (st', controller') ∧
      ∃ frame, controller' = [] ++ [frame] ∧
        ∀ c i, c < frame.numberOfChannels → i < frame.numberOfFrames →
          -1 ≤ frame.plane c i ∧ frame.plane c i ≤ 1 := by
  obtain ⟨st', controller', h⟩ := pulseToneTransform_total Real.sin Real.pi
    (getPulseToneTransform : ToneState ℝ) chunk480 [] (by norm_num [chunk480])
    (by decide) (by decide) (by decide)
  exact ⟨st', controller', h,
    C2_output_samples_in_unit_interval Real.sin Real.pi _ st' chunk480 [] controller' h⟩

/-- C8 (counterexample): a valid mono frame of 4800 samples (100 ms at 48 kHz) does not fit the
4096-element scratch buffer, and the transform throws a `RangeError`. -/
theorem C8_oversized_frame_throws :
    pulseToneTransform Real.sin Real.pi (getPulseToneTransform : ToneState ℝ) chunk4800 []
      = .error .RangeError :=
  pulseToneTransform_oversize Real.sin Real.pi _ chunk4800 [] (by decide) (by decide)

/-- C8 (amended): for a frame with positive sample rate, at least one frame and one channel,
and `numberOfFrames * numberOfChannels` at most the scratch-buffer size of 4096, an invocation
of the transform completes in every state of the instance and enqueues a frame. -/
theorem C8_completes_when_frame_fits (sin : α → α) (PI : α) (st : ToneState α)
    (data : AudioData α) (controller : List (AudioData α))
    (hrate : 0 < data.sampleRate) (hframes : 1 ≤ data.numberOfFrames)
    (hchannels : 1 ≤ data.numberOfChannels)
    (hfit : data.numberOfFrames * data.numberOfChannels ≤ 4096) :
    ∃ st' frame, pulseToneTransform sin PI st data controller
      = .ok (st', controller ++ [frame]) := by
  obtain ⟨st', controller', h⟩ :=
    pulseToneTransform_total sin PI st data controller hrate hframes hchannels hfit
  obtain ⟨_, _, _, frame, hc, _⟩ :=
    pulseToneTransform_ok sin PI st st' data controller controller' h
  exact ⟨st', frame, hc ▸ h⟩

theorem C8_completes_when_frame_fits_witness :
    ∃ st' frame, pulseToneTransform Real.sin Real.pi (getPulseToneTransform : ToneState ℝ)
      chunk480 [] = .ok (st', [] ++ [frame]) :=
  C8_completes_when_frame_fits Real.sin Real.pi _ chunk480 [] (by norm_num [chunk480])
    (by decide) (by decide) (by decide)

/-- C6 (the code at the failing input): after six chunks of 480 frames at 48 kHz the stored
`phaseA` of a fresh instance is `2.4 * pi`, which is not below `2 * pi`. -/
theorem C6_phaseA_leaves_interval :
    ∃ st', (transformStream Real.sin Real.pi (getPulseToneTransform : ToneState ℝ)
        (List.replicate 6 chunk480) []).2 = .ok st' ∧
      st'.phaseA = 12 / 5 * Real.pi ∧ ¬ (st'.phaseA < 2 * Real.pi) := by
  obtain ⟨st', hrun, hphase⟩ := transformStream_chunk480 6
    (getPulseToneTransform : ToneState ℝ) [] (le_of_eq getPulseToneTransform_phaseA.symm)
  have hval : st'.phaseA = 12 / 5 * Real.pi := by
    rw [hphase, getPulseToneTransform_phaseA]
    norm_num
    ring
  refine ⟨st', hrun, hval, ?_⟩
  rw [hval]
  have := Real.pi_pos
  linarith

end TransformClaims

section SignalingClaims

/-- C4 (counterexample): on the calling side (after 'ready') a well-formed candidate that
arrives before the answer is applied to the connection before any remote description; on the
called side a candidate that arrives before the offer is not held for later but lost; and the
candidates of the sequence offer X, candidate "c1", candidate "c2", taken as the bare strings
they are written as, are never applied, because `new RTCIceCandidate` throws for them. -/
theorem C4_candidate_applied_early_or_lost :
    candidatesAfterRemote [] (run (loaded false true true [Track.raw 0])
      [Event.ready, Event.data ⟨"candidate", "", .dictionary "c1" (some "0") (some 0)⟩,
       Event.data ⟨"answer", "A", .undefined⟩]).calls = false ∧
    (run (loaded false true true [Track.raw 0])
      [Event.ready, Event.data ⟨"candidate", "", .dictionary "c1" (some "0") (some 0)⟩,
       Event.data ⟨"answer", "A", .undefined⟩]).calls
        = [Call.newRTCPeerConnection 0, Call.addStream 0 [Track.raw 0], Call.createOffer 0,
           Call.addIceCandidate 0 ⟨"c1", some "0", some 0⟩,
           Call.setRemoteDescription 0 ⟨"answer", "A", .undefined⟩] ∧
    appliedOn (run (loaded false true true [Track.raw 0])
      [Event.data ⟨"candidate", "", .dictionary "c1" (some "0") (some 0)⟩,
       Event.data ⟨"offer", "X", .undefined⟩]).calls = [] ∧
    appliedOn (run (loaded false true true [Track.raw 0])
      [Event.data ⟨"offer", "X", .undefined⟩, Event.data ⟨"candidate", "", .string "c1"⟩,
       Event.data ⟨"candidate", "", .string "c2"⟩]).calls = [] := by
  decide

/-- C4 (amended): `handleSignalingData` holds no candidate back.  From every state of the page
and for every sequence of inbound messages, the candidates applied with `addIceCandidate` are
exactly those of the reference `expectedApplied`, on the same connections and in the same
order: each well-formed candidate is applied at once to the connection current at that moment,
and a candidate that arrives while no connection exists or that is malformed is lost.  On a
page whose connections are all created by `handleSignalingData` (no 'ready' event) every
`addIceCandidate` call is made on a connection on which `setRemoteDescription` was called
before.  For an offer X followed by two well-formed candidates c1, c2, `setRemoteDescription(X)`
is called first and then `addIceCandidate(c1)`, `addIceCandidate(c2)`, in that order. -/
theorem C4_candidates_applied_at_once_in_order (s : Page)
    (insertOutbound insertInbound insertable : Bool) (localStream : MediaStream)
    (messages : List SignalingData) (sdp c1 c2 mid1 mid2 : String)
    (index1 index2 : Option Nat) :
    appliedOn (run s (messages.map Event.data)).calls
      = appliedOn s.calls ++ expectedApplied s.pc s.connections messages ∧
    candidatesAfterRemote [] (run (loaded insertOutbound insertInbound insertable localStream)
      (messages.map Event.data)).calls = true ∧
    (run (loaded insertOutbound insertInbound insertable localStream)
      [Event.data ⟨"offer", sdp, .undefined⟩,
       Event.data ⟨"candidate", "", .dictionary c1 (some mid1) index1⟩,
       Event.data ⟨"candidate", "", .dictionary c2 (some mid2) index2⟩]).calls
      = (createPeerConnection (loaded insertOutbound insertInbound insertable localStream)).calls
        ++ [Call.setRemoteDescription 0 ⟨"offer", sdp, .undefined⟩, Call.createAnswer 0,
            Call.addIceCandidate 0 ⟨c1, some mid1, index1⟩,
            Call.addIceCandidate 0 ⟨c2, some mid2, index2⟩] := by
  refine ⟨run_data_applied messages s, ?_, ?_⟩
  · exact run_data_invariant messages
      (loaded insertOutbound insertInbound insertable localStream) rfl
      (by intro p hp; cases hp)
  · have hpc : (createPeerConnection
        (loaded insertOutbound insertInbound insertable localStream)).pc = some 0 :=
      (createPeerConnection_spec _).1
    have hconn : (loaded insertOutbound insertInbound insertable localStream).connections
        = 0 := rfl
    simp only [run, List.foldl_cons, List.foldl_nil, step, dispatch,
      handleSignalingData_offer _ ⟨"offer", sdp, .undefined⟩ rfl,
      handleSignalingData_candidate _ ⟨"candidate", "", .dictionary c1 (some mid1) index1⟩ rfl,
      handleSignalingData_candidate _ ⟨"candidate", "", .dictionary c2 (some mid2) index2⟩ rfl,
      hpc, hconn, RTCIceCandidate, List.append_assoc, List.cons_append, List.nil_append]

/-- C5 (counterexample): a second offer that arrives while the connection made for the first
one is still being set up raises no error; the connection is replaced by a new one, which gets
the second offer as remote description, and a second answer is requested. -/
theorem C5_second_offer_reprocessed :
    (run (loaded false true true [Track.raw 0]) [Event.data ⟨"offer", "X", .undefined⟩]).pc = some 0 ∧
    handleSignalingData
      (run (loaded false true true [Track.raw 0]) [Event.data ⟨"offer", "X", .undefined⟩])
      ⟨"offer", "Y", .undefined⟩
      = Except.ok (run (loaded false true true [Track.raw 0])
          [Event.data ⟨"offer", "X", .undefined⟩, Event.data ⟨"offer", "Y", .undefined⟩]) ∧
    (run (loaded false true true [Track.raw 0])
      [Event.data ⟨"offer", "X", .undefined⟩, Event.data ⟨"offer", "Y", .undefined⟩]).pc = some 1 ∧
    (run (loaded false true true [Track.raw 0])
      [Event.data ⟨"offer", "X", .undefined⟩, Event.data ⟨"offer", "Y", .undefined⟩]).calls
      = [Call.newRTCPeerConnection 0, Call.addStream 0 [Track.raw 0],
         Call.setRemoteDescription 0 ⟨"offer", "X", .undefined⟩, Call.createAnswer 0,
         Call.newRTCPeerConnection 1, Call.addStream 1 [Track.raw 0],
         Call.setRemoteDescription 1 ⟨"offer", "Y", .undefined⟩, Call.createAnswer 1] :=
  ⟨by decide, rfl, by decide, by decide⟩

/-- C5 (amended): an offer is handled in the same way whether or not a negotiation is in
progress: no error is raised, `createPeerConnection` makes a new connection the current one,
the offer is set on the new connection as remote description and an answer is requested from
it. -/
theorem C5_offer_always_reprocessed (s : Page) (sdp : String) (candidate : CandidateValue) :
    handleSignalingData s ⟨"offer", sdp, candidate⟩
      = .ok { createPeerConnection s with
          calls := (createPeerConnection s).calls
            ++ [Call.setRemoteDescription s.connections ⟨"offer", sdp, candidate⟩,
                Call.createAnswer s.connections] } ∧
    (createPeerConnection s).pc = some s.connections ∧
    ∃ attach, (createPeerConnection s).calls
      = s.calls ++ Call.newRTCPeerConnection s.connections :: attach := by
  obtain ⟨hpc, _, attach, hcalls, _⟩ := createPeerConnection_spec s
  exact ⟨handleSignalingData_offer s ⟨"offer", sdp, candidate⟩ rfl, hpc, attach, hcalls⟩

/-- C9 (the code at the failing input): with the file's own settings, after an offer and a
'track' event for the remote track, `onTrack` has piped the remote track through a new
transformer into a new generator and has given the renderer a stream that holds the generator's
track only; the received stream itself is handed to nothing.  Whether frames then flow is not
decided by these calls, and lines 216-219 record that none do.  The last equation is the
outbound direction with its own setting: the same pipe, over the captured track, with the
generator's stream attached to the connection. -/
theorem C9_onTrack_pipes_remote_track :
    (run (loaded false true true [Track.raw 0])
      [Event.data ⟨"offer", "X", .undefined⟩,
       Event.track (Track.raw 1) [[Track.raw 1]]]).calls
      = [Call.newRTCPeerConnection 0, Call.addStream 0 [Track.raw 0],
         Call.setRemoteDescription 0 ⟨"offer", "X", .undefined⟩, Call.createAnswer 0,
         Call.pipe (Track.raw 1) 0 0] ∧
    (run (loaded false true true [Track.raw 0])
      [Event.data ⟨"offer", "X", .undefined⟩,
       Event.track (Track.raw 1) [[Track.raw 1]]]).srcObject = some [Track.generator 0] ∧
    (run (loaded true false true [Track.raw 0]) [Event.ready]).calls
      = [Call.newRTCPeerConnection 0, Call.pipe (Track.raw 0) 0 0,
         Call.addStream 0 [Track.generator 0], Call.createOffer 0] := by
  decide

/-- C10 (counterexample): with outbound routing enabled, (1) without the insertable-streams
classes and (2) with a local stream without audio track, building the pipeline throws, the catch
logs the error, and the offer is requested from a connection to which no pipeline and no stream
is attached; (3) when `createOffer` is rejected a 'ready' event sends no offer message at all;
(4) an answer that arrives before the promise is fulfilled is handled before the offer is
sent. -/
theorem C10_offer_without_pipeline :
    (run (loaded true true false [Track.raw 0]) [Event.ready]).calls
      = [Call.newRTCPeerConnection 0, Call.consoleError "PeerConnection failed: ",
         Call.createOffer 0] ∧
    (run (loaded true true true []) [Event.ready]).calls
      = [Call.newRTCPeerConnection 0, Call.consoleError "PeerConnection failed: ",
         Call.createOffer 0] ∧
    (run (loaded true true true [Track.raw 0]) [Event.ready, Event.offerRejected]).calls
      = [Call.newRTCPeerConnection 0, Call.pipe (Track.raw 0) 0 0,
         Call.addStream 0 [Track.generator 0], Call.createOffer 0,
         Call.consoleError "Send offer failed: "] ∧
    (run (loaded true true true [Track.raw 0])
      [Event.ready, Event.data ⟨"answer", "A", .undefined⟩,
       Event.fulfilled ⟨"offer", "O", .undefined⟩]).calls
      = [Call.newRTCPeerConnection 0, Call.pipe (Track.raw 0) 0 0,
         Call.addStream 0 [Track.generator 0], Call.createOffer 0,
         Call.setRemoteDescription 0 ⟨"answer", "A", .undefined⟩,
         Call.setLocalDescription 0 ⟨"offer", "O", .undefined⟩,
         Call.socketEmit ⟨"offer", "O", .undefined⟩] := by
  decide

/-- C10 (amended): with outbound routing enabled, from every state of the page a 'ready' event
makes a new connection and calls `createOffer` on it exactly once, after the pipeline has been
piped and the generator's stream attached when building the pipeline succeeds, and after the
caught error has been logged (nothing attached) when it fails, for want of the
insertable-streams classes or of an audio track.  The offer message is sent exactly once, at the
moment the promise is fulfilled: before an answer that arrives after that moment, after an
answer that arrives before it; when the promise is rejected no offer message is sent. -/
theorem C10_one_offer_after_attach (s : Page) (offer : SignalingData) (sdp : String)
    (candidate : CandidateValue) (hout : s.insertOutboundTonePulse = true) :
    (run s [Event.ready, Event.fulfilled offer, Event.data ⟨"answer", sdp, candidate⟩]).calls
      = s.calls ++ Call.newRTCPeerConnection s.connections ::
          ((if s.insertableStreams then
              match s.localStream with
              | [] => [Call.consoleError "PeerConnection failed: "]
              | track :: _ => [Call.pipe track s.transforms s.generators,
                  Call.addStream s.connections [Track.generator s.generators]]
            else [Call.consoleError "PeerConnection failed: "])
          ++ [Call.createOffer s.connections,
              Call.setLocalDescription s.connections offer,
              Call.socketEmit offer,
              Call.setRemoteDescription s.connections ⟨"answer", sdp, candidate⟩]) ∧
    (run s [Event.ready, Event.data ⟨"answer", sdp, candidate⟩, Event.fulfilled offer]).calls
      = s.calls ++ Call.newRTCPeerConnection s.connections ::
          ((if s.insertableStreams then
              match s.localStream with
              | [] => [Call.consoleError "PeerConnection failed: "]
              | track :: _ => [Call.pipe track s.transforms s.generators,
                  Call.addStream s.connections [Track.generator s.generators]]
            else [Call.consoleError "PeerConnection failed: "])
          ++ [Call.createOffer s.connections,
              Call.setRemoteDescription s.connections ⟨"answer", sdp, candidate⟩,
              Call.setLocalDescription s.connections offer,
              Call.socketEmit offer]) ∧
    (run s [Event.ready, Event.offerRejected]).calls
      = s.calls ++ Call.newRTCPeerConnection s.connections ::
          ((if s.insertableStreams then
              match s.localStream with
              | [] => [Call.consoleError "PeerConnection failed: "]
              | track :: _ => [Call.pipe track s.transforms s.generators,
                  Call.addStream s.connections [Track.generator s.generators]]
            else [Call.consoleError "PeerConnection failed: "])
          ++ [Call.createOffer s.connections, Call.consoleError "Send offer failed: "]) := by
  cases hins : s.insertableStreams <;> cases hlocal : s.localStream <;>
    simp [run, step, dispatch, createPeerConnection, hout, hins, hlocal, sendOffer,
      setAndSendLocalDescription, sendData,
      handleSignalingData_answer _ ⟨"answer", sdp, candidate⟩ rfl]

theorem C10_one_offer_after_attach_witness :
    (run (loaded true true true [Track.raw 0])
      [Event.ready, Event.fulfilled ⟨"offer", "O", .undefined⟩,
       Event.data ⟨"answer", "A", .undefined⟩]).calls
      = [] ++ Call.newRTCPeerConnection 0 ::
          ([Call.pipe (Track.raw 0) 0 0, Call.addStream 0 [Track.generator 0]]
          ++ [Call.createOffer 0,
              Call.setLocalDescription 0 ⟨"offer", "O", .undefined⟩,
              Call.socketEmit ⟨"offer", "O", .undefined⟩,
              Call.setRemoteDescription 0 ⟨"answer", "A", .undefined⟩]) :=
  (C10_one_offer_after_attach (loaded true true true [Track.raw 0])
    ⟨"offer", "O", .undefined⟩ "A" .undefined rfl).1

end SignalingClaims

end MainJs
